import Mathlib

/-!
Shallow embedding of `src/profile.py` (sheatsley/profiler): the
delta-based CPU utilization computation, the GPU reading parser, the
bar-gauge renderer and grid layout arithmetic of `compute_bars` /
`__init__`, the `StdOutWrapper` output buffer, and the stdout-redirect
state touched by `__init__` / `deinit`.  Machine floats of the numpy
pipeline are modelled over `ℚ`, with numpy's division-by-zero and
`nan_to_num` behaviour made explicit.
-/

namespace Profiler

/-- The eight per-core CPU time-in-state counters read from `/proc/stat`
(columns user, nice, system, idle, iowait, irq, softirq, steal), as
unpacked in `PerformanceProfiler.cpu_utilization`. -/
structure CoreStat where
  user : Int
  nice : Int
  system : Int
  idle : Int
  iowait : Int
  irq : Int
  softirq : Int
  steal : Int
deriving DecidableEq, Repr

/-- Largest finite IEEE-754 double, `(2^53 - 1) * 2^971`: the value numpy's
`nan_to_num` substitutes for `+inf`. -/
def F64_MAX : ℚ := (2 ^ 53 - 1) * 2 ^ 971

/-- `nan_to_num(usage / total)` of the numpy pipeline: division by a
nonzero total is exact rational division; `0 / 0` gives `nan`, mapped to
`0`; `x / 0` for `x ≠ 0` gives `±inf`, mapped to `±F64_MAX`.  numpy emits
a warning, never an exception, on these divisions. -/
def nan_to_num_div (usage total : Int) : ℚ :=
  if total = 0 then
    if usage = 0 then 0
    else if 0 < usage then F64_MAX else -F64_MAX
  else (usage : ℚ) / (total : ℚ)

/-- `subtract(metrics, prior_metrics)` restricted to one core: the
current-minus-prior counter deltas. -/
def coreDelta (prior current : CoreStat) : CoreStat :=
  ⟨current.user - prior.user, current.nice - prior.nice,
   current.system - prior.system, current.idle - prior.idle,
   current.iowait - prior.iowait, current.irq - prior.irq,
   current.softirq - prior.softirq, current.steal - prior.steal⟩

/-- `total = user + nice + system + idle + iowait + irq + softirq + steal`. -/
def coreTotal (d : CoreStat) : Int :=
  d.user + d.nice + d.system + d.idle + d.iowait + d.irq + d.softirq + d.steal

/-- `nbusy = idle + iowait`. -/
def coreNBusy (d : CoreStat) : Int := d.idle + d.iowait

/-- One core's entry of `nan_to_num(usage / total)` where
`usage = total - nbusy`. -/
def core_util (prior current : CoreStat) : ℚ :=
  let d := coreDelta prior current
  nan_to_num_div (coreTotal d - coreNBusy d) (coreTotal d)

/-- `PerformanceProfiler.cpu_utilization`: given the prior snapshot and the
freshly parsed current snapshot, return the per-core utilization list and
the current snapshot (returned as the next `prior_metrics`).  The numpy
vectorized arithmetic acts core-wise. -/
def cpu_utilization (prior current : List CoreStat) :
    List ℚ × List CoreStat :=
  (List.zipWith core_util prior current, current)

/-- All eight counter deltas are non-negative (no counter reset). -/
def CoreStat.Nonneg (d : CoreStat) : Prop :=
  0 ≤ d.user ∧ 0 ≤ d.nice ∧ 0 ≤ d.system ∧ 0 ≤ d.idle ∧
  0 ≤ d.iowait ∧ 0 ≤ d.irq ∧ 0 ≤ d.softirq ∧ 0 ≤ d.steal

instance (d : CoreStat) : Decidable d.Nonneg := by
  unfold CoreStat.Nonneg; infer_instance

/-- Python `int(q)` on a float: truncation toward zero. -/
def pyInt (q : ℚ) : Int := if 0 ≤ q then ⌊q⌋ else ⌈q⌉

/-- Python string repetition `c * n`: empty for `n ≤ 0`. -/
def pyRepeat (c : Char) (n : Int) : String :=
  String.mk (List.replicate n.toNat c)

/-- Python `s.ljust(width)`: pad on the right with spaces up to `width`
(no-op when `s` is already at least that long). -/
def ljust (s : String) (width : ℕ) : String :=
  s ++ String.mk (List.replicate (width - s.length) ' ')

/-- The bar-gauge expression of `PerformanceProfiler.compute_bars` for a
numeric metric: `"[" + ("|" * int(self.ticks * metric)).ljust(self.ticks)
+ "]"`. -/
def render_bar (metric : ℚ) (ticks : ℕ) : String :=
  "[" ++ ljust (pyRepeat '|' (pyInt ((ticks : ℚ) * metric))) ticks ++ "]"

/-- Number of filled ticks (`'|'` characters) in a rendered gauge. -/
def pipeCount (s : String) : ℕ := s.data.count '|'

/-- Bounds for the utilization value when every counter delta is
non-negative: with a zero total all deltas vanish and the value is `0`;
with a positive total it is `usage / total` with `0 ≤ usage ≤ total`. -/
theorem nan_to_num_div_bounds (d : CoreStat) (hnn : d.Nonneg) :
    0 ≤ nan_to_num_div (coreTotal d - coreNBusy d) (coreTotal d) ∧
    nan_to_num_div (coreTotal d - coreNBusy d) (coreTotal d) ≤ 1 := by
  obtain ⟨h1, h2, h3, h4, h5, h6, h7, h8⟩ := hnn
  unfold nan_to_num_div
  by_cases h0 : coreTotal d = 0
  · have hu : coreTotal d - coreNBusy d = 0 := by
      unfold coreTotal at h0 ⊢; unfold coreNBusy; omega
    rw [if_pos h0, if_pos hu]
    norm_num
  · have htpos : (0 : ℤ) < coreTotal d := by unfold coreTotal at h0 ⊢; omega
    have husage0 : (0 : ℤ) ≤ coreTotal d - coreNBusy d := by
      unfold coreTotal coreNBusy; omega
    have husaget : coreTotal d - coreNBusy d ≤ coreTotal d := by
      unfold coreTotal coreNBusy; omega
    rw [if_neg h0]
    constructor
    · exact div_nonneg (by exact_mod_cast husage0) (by exact_mod_cast htpos.le)
    · rw [div_le_one (by exact_mod_cast htpos)]
      exact_mod_cast husaget

end Profiler

namespace Profiler

/-- C1: when every per-core delta (current − prior) is non-negative and
they sum to a positive total, the utilization fraction is
`(total − (idle_delta + iowait_delta)) / total`; for prior
`[0,0,0,100,0,0,0,0]` and current `[10,0,0,190,0,0,0,0]` the fraction is
`0.10`, and rendering `0.10` at width 30 fills exactly 3 ticks. -/
theorem C1_cpu_fraction_and_bar :
    (∀ p c : CoreStat, (coreDelta p c).Nonneg →
      0 < coreTotal (coreDelta p c) →
      core_util p c =
        ((coreTotal (coreDelta p c) : ℚ) - (coreNBusy (coreDelta p c) : ℚ)) /
          (coreTotal (coreDelta p c) : ℚ)) ∧
    (cpu_utilization [⟨0, 0, 0, 100, 0, 0, 0, 0⟩]
      [⟨10, 0, 0, 190, 0, 0, 0, 0⟩]).1 = [(1 : ℚ) / 10] ∧
    pipeCount (render_bar ((1 : ℚ) / 10) 30) = 3 := by
  refine ⟨fun p c _ hpos => ?_, ?_, ?_⟩
  · have hne : coreTotal (coreDelta p c) ≠ 0 := ne_of_gt hpos
    unfold core_util nan_to_num_div
    rw [if_neg hne]
    push_cast
    ring
  · norm_num [cpu_utilization, core_util, coreDelta, coreTotal, coreNBusy,
      nan_to_num_div]
  · norm_num [render_bar, pyInt, pyRepeat, ljust, pipeCount]
    decide

/-- Witness for C1 at prior `[0,0,0,100,0,0,0,0]`,
current `[10,0,0,190,0,0,0,0]`. -/
theorem C1_witness :
    (coreDelta ⟨0, 0, 0, 100, 0, 0, 0, 0⟩ ⟨10, 0, 0, 190, 0, 0, 0, 0⟩).Nonneg ∧
    0 < coreTotal (coreDelta ⟨0, 0, 0, 100, 0, 0, 0, 0⟩
      ⟨10, 0, 0, 190, 0, 0, 0, 0⟩) ∧
    core_util ⟨0, 0, 0, 100, 0, 0, 0, 0⟩ ⟨10, 0, 0, 190, 0, 0, 0, 0⟩ =
      ((100 : ℚ) - 90) / 100 := by
  refine ⟨by decide, by decide, ?_⟩
  have h := C1_cpu_fraction_and_bar.1 ⟨0, 0, 0, 100, 0, 0, 0, 0⟩
    ⟨10, 0, 0, 190, 0, 0, 0, 0⟩ (by decide) (by decide)
  rw [h]
  norm_num [coreDelta, coreTotal, coreNBusy]

/-- C2 counterexample: prior core `(0,0,0,5,0,0,0,0)`, current
`(5,0,0,0,0,0,0,0)` has counter deltas summing to zero, yet
`cpu_utilization` returns `nan_to_num(5 / 0) = F64_MAX ≠ 0` for that core
(the idle counter went backwards, so `usage = 5` and the division yields
`+inf`, which `nan_to_num` maps to the largest double). -/
theorem C2_counterexample :
    coreTotal (coreDelta ⟨0, 0, 0, 5, 0, 0, 0, 0⟩ ⟨5, 0, 0, 0, 0, 0, 0, 0⟩) = 0 ∧
    (cpu_utilization [⟨0, 0, 0, 5, 0, 0, 0, 0⟩]
      [⟨5, 0, 0, 0, 0, 0, 0, 0⟩]).1 = [F64_MAX] ∧
    F64_MAX ≠ 0 := by
  refine ⟨by decide, ?_, by norm_num [F64_MAX]⟩
  norm_num [cpu_utilization, core_util, coreDelta, coreTotal, coreNBusy,
    nan_to_num_div]

/-- C2 (amended): `cpu_utilization` is core-wise `core_util`, a total
function (numpy division never raises), and when a core's deltas sum to
zero and its `idle + iowait` delta is also zero — in particular whenever
no counter advanced — the core's utilization is `0`. -/
theorem C2_zero_total :
    (∀ prior current, (cpu_utilization prior current).1 =
      List.zipWith core_util prior current) ∧
    ∀ p c : CoreStat, coreTotal (coreDelta p c) = 0 →
      coreNBusy (coreDelta p c) = 0 → core_util p c = 0 := by
  refine ⟨fun _ _ => rfl, fun p c h0 hb => ?_⟩
  unfold core_util nan_to_num_div
  rw [if_pos h0, if_pos (by rw [h0, hb]; ring)]

/-- Witness for C2 at an unchanged snapshot (all deltas zero). -/
theorem C2_witness :
    coreTotal (coreDelta ⟨1, 1, 1, 1, 1, 1, 1, 1⟩ ⟨1, 1, 1, 1, 1, 1, 1, 1⟩) = 0 ∧
    coreNBusy (coreDelta ⟨1, 1, 1, 1, 1, 1, 1, 1⟩ ⟨1, 1, 1, 1, 1, 1, 1, 1⟩) = 0 ∧
    core_util ⟨1, 1, 1, 1, 1, 1, 1, 1⟩ ⟨1, 1, 1, 1, 1, 1, 1, 1⟩ = 0 :=
  ⟨by decide, by decide, C2_zero_total.2 _ _ (by decide) (by decide)⟩

/-- C3 counterexample: a counter reset (prior core `(100,0,0,0,0,0,0,0)`,
current `(0,0,0,10,0,0,0,0)`) makes `cpu_utilization` return `10/9 > 1`:
nothing in the code clamps the quotient to `[0,1]`. -/
theorem C3_counterexample :
    (cpu_utilization [⟨100, 0, 0, 0, 0, 0, 0, 0⟩]
      [⟨0, 0, 0, 10, 0, 0, 0, 0⟩]).1 = [(10 : ℚ) / 9] ∧
    ¬ ((10 : ℚ) / 9 ≤ 1) := by
  constructor
  · norm_num [cpu_utilization, core_util, coreDelta, coreTotal, coreNBusy,
      nan_to_num_div]
  · norm_num

/-- C3 (amended): `cpu_utilization` is core-wise `core_util`, and when all
eight of a core's deltas are non-negative its utilization lies in `[0,1]`;
under a counter reset (some negative delta) the quotient is not clamped
and can leave `[0,1]`. -/
theorem C3_bounds_nonneg_deltas :
    (∀ prior current, (cpu_utilization prior current).1 =
      List.zipWith core_util prior current) ∧
    ∀ p c : CoreStat, (coreDelta p c).Nonneg →
      0 ≤ core_util p c ∧ core_util p c ≤ 1 :=
  ⟨fun _ _ => rfl, fun p c hnn => nan_to_num_div_bounds (coreDelta p c) hnn⟩

/-- Witness for C3 at prior `[0,0,0,50,0,0,0,0]`, current
`[30,0,0,70,0,0,0,0]` (all deltas non-negative). -/
theorem C3_witness :
    (coreDelta ⟨0, 0, 0, 50, 0, 0, 0, 0⟩ ⟨30, 0, 0, 70, 0, 0, 0, 0⟩).Nonneg ∧
    0 ≤ core_util ⟨0, 0, 0, 50, 0, 0, 0, 0⟩ ⟨30, 0, 0, 70, 0, 0, 0, 0⟩ ∧
    core_util ⟨0, 0, 0, 50, 0, 0, 0, 0⟩ ⟨30, 0, 0, 70, 0, 0, 0, 0⟩ ≤ 1 := by
  refine ⟨by decide, ?_, ?_⟩
  · exact (C3_bounds_nonneg_deltas.2 _ _ (by decide)).1
  · exact (C3_bounds_nonneg_deltas.2 _ _ (by decide)).2

/-- The clamp of a fraction to `[0,1]`, as the claim words it. -/
def clamp01 (f : ℚ) : ℚ := max 0 (min f 1)

/-- The claim's filled-tick count: `floor(width * clamp(f, 0, 1))`. -/
def claimFilled (f : ℚ) (w : ℕ) : ℕ := (⌊(w : ℚ) * clamp01 f⌋).toNat

/-- For `f ≤ 1`, Python's truncation `int(w * f)` (zero-floored by the
string repetition) agrees with `floor(w * clamp(f, 0, 1))`. -/
theorem pyInt_toNat_eq_claimFilled (f : ℚ) (w : ℕ) (hf : f ≤ 1) :
    (pyInt ((w : ℚ) * f)).toNat = claimFilled f w := by
  unfold pyInt claimFilled clamp01
  rcases le_or_lt 0 f with h0 | h0
  · rw [min_eq_left hf, max_eq_right h0,
      if_pos (mul_nonneg (Nat.cast_nonneg w) h0)]
  · rw [min_eq_left hf, max_eq_left h0.le, mul_zero, Int.floor_zero]
    by_cases hwf : 0 ≤ (w : ℚ) * f
    · have h : (w : ℚ) * f = 0 :=
        le_antisymm (mul_nonpos_of_nonneg_of_nonpos (Nat.cast_nonneg w) h0.le) hwf
      rw [if_pos hwf, h, Int.floor_zero]
    · rw [if_neg hwf]
      have h : ⌈(w : ℚ) * f⌉ ≤ 0 :=
        Int.ceil_le.mpr (by exact_mod_cast le_of_not_le hwf)
      simp [Int.toNat_of_nonpos h]

/-- The filled-tick count never exceeds the bar width. -/
theorem claimFilled_le (f : ℚ) (w : ℕ) : claimFilled f w ≤ w := by
  unfold claimFilled clamp01
  have hcl : max 0 (min f 1) ≤ 1 := max_le zero_le_one (min_le_right f 1)
  have h1 : (w : ℚ) * max 0 (min f 1) ≤ (w : ℚ) :=
    mul_le_of_le_one_right (Nat.cast_nonneg w) hcl
  have h2 : ⌊(w : ℚ) * max 0 (min f 1)⌋ ≤ (w : ℤ) := by
    calc ⌊(w : ℚ) * max 0 (min f 1)⌋ ≤ ⌊(w : ℚ)⌋ := Int.floor_le_floor h1
    _ = (w : ℤ) := Int.floor_natCast w
  exact Int.toNat_le.mpr h2

/-- Length of a packed replicated character list. -/
theorem mk_replicate_length (n : ℕ) (c : Char) :
    (String.mk (List.replicate n c)).length = n := by
  show (List.replicate n c).length = n
  simp

/-- The empty packed list has length zero. -/
theorem mk_nil_length : (String.mk ([] : List Char)).length = 0 := rfl

/-- The empty packed list is a left identity for string append. -/
theorem mk_nil_append (s : String) : String.mk ([] : List Char) ++ s = s := by
  apply String.ext
  show [] ++ s.data = s.data
  simp

/-- The empty packed list is a right identity for string append. -/
theorem append_mk_nil (s : String) : s ++ String.mk ([] : List Char) = s := by
  apply String.ext
  show s.data ++ [] = s.data
  simp

/-- For `f ≤ 1` the gauge text is exactly the bracketed bar of
`claimFilled` ticks padded with blanks. -/
theorem render_bar_eq (f : ℚ) (w : ℕ) (hf : f ≤ 1) :
    render_bar f w =
      "[" ++ String.mk (List.replicate (claimFilled f w) '|') ++
        String.mk (List.replicate (w - claimFilled f w) ' ') ++ "]" := by
  simp only [render_bar, ljust, pyRepeat, pyInt_toNat_eq_claimFilled f w hf,
    mk_replicate_length, String.append_assoc]

/-- For `f ≤ 1` the gauge text has length `w + 2`. -/
theorem render_bar_length (f : ℚ) (w : ℕ) (hf : f ≤ 1) :
    (render_bar f w).length = w + 2 := by
  have hk := claimFilled_le f w
  rw [render_bar_eq f w hf]
  simp only [String.length_append, mk_replicate_length]
  rw [show "[".length = 1 from rfl, show "]".length = 1 from rfl]
  omega

/-- A zero fraction renders as an all-blank gauge. -/
theorem render_bar_zero (w : ℕ) :
    render_bar 0 w = "[" ++ String.mk (List.replicate w ' ') ++ "]" := by
  have h : pyInt ((w : ℚ) * 0) = 0 := by simp [pyInt]
  simp only [render_bar, ljust, pyRepeat, h, Int.toNat_zero,
    mk_replicate_length, mk_nil_length, Nat.sub_zero, List.replicate_zero,
    mk_nil_append, String.append_assoc]

/-- A full fraction renders as an all-filled gauge. -/
theorem render_bar_one (w : ℕ) :
    render_bar 1 w = "[" ++ String.mk (List.replicate w '|') ++ "]" := by
  have h : pyInt ((w : ℚ) * 1) = (w : ℤ) := by simp [pyInt]
  simp only [render_bar, ljust, pyRepeat, h, Int.toNat_natCast,
    mk_replicate_length, Nat.sub_self, List.replicate_zero, append_mk_nil,
    String.append_assoc]

/-- C4 counterexample: the code never clamps a fraction above `1`:
`render_bar 2 10` repeats `int(10 * 2) = 20` ticks, `ljust` does not trim,
and the text has length `22`, not `10 + 2`. -/
theorem C4_counterexample :
    (render_bar 2 10).length = 22 ∧ ¬ ((render_bar 2 10).length = 10 + 2) := by
  have h : (render_bar 2 10).length = 22 := by
    norm_num [render_bar, pyInt, pyRepeat, ljust]
    decide
  exact ⟨h, by rw [h]; norm_num⟩

/-- C4 (amended): for every fraction `f ≤ 1` and bar width `w > 0` the
gauge equals `"[" + "|" * filled + " " * blank + "]"` with
`filled = floor(w * clamp(f, 0, 1))` and `blank = w − filled`, so its
length is `w + 2`; `render_bar 0 w` is all blank, `render_bar 1 w` is all
filled, and `render_bar (1/2) 10` has exactly 5 filled ticks.  Fractions
above `1` are not clamped and overflow the gauge. -/
theorem C4_render_bar :
    (∀ f : ℚ, ∀ w : ℕ, 0 < w → f ≤ 1 →
      render_bar f w =
        "[" ++ String.mk (List.replicate (claimFilled f w) '|') ++
          String.mk (List.replicate (w - claimFilled f w) ' ') ++ "]" ∧
      (render_bar f w).length = w + 2) ∧
    (∀ w : ℕ, render_bar 0 w = "[" ++ String.mk (List.replicate w ' ') ++ "]") ∧
    (∀ w : ℕ, render_bar 1 w = "[" ++ String.mk (List.replicate w '|') ++ "]") ∧
    pipeCount (render_bar ((1 : ℚ) / 2) 10) = 5 := by
  refine ⟨fun f w _ hf => ⟨render_bar_eq f w hf, render_bar_length f w hf⟩,
    render_bar_zero, render_bar_one, ?_⟩
  norm_num [render_bar, pyInt, pyRepeat, ljust, pipeCount]
  decide

/-- Witness for C4 at `f = 1/2`, `w = 10`. -/
theorem C4_witness :
    (0 < 10) ∧ ((1 : ℚ) / 2 ≤ 1) ∧
    render_bar ((1 : ℚ) / 2) 10 =
      "[" ++ String.mk (List.replicate (claimFilled ((1 : ℚ) / 2) 10) '|') ++
        String.mk (List.replicate (10 - claimFilled ((1 : ℚ) / 2) 10) ' ') ++
        "]" ∧
    (render_bar ((1 : ℚ) / 2) 10).length = 10 + 2 :=
  ⟨by norm_num, by norm_num,
   (C4_render_bar.1 (1 / 2) 10 (by norm_num) (by norm_num)).1,
   (C4_render_bar.1 (1 / 2) 10 (by norm_num) (by norm_num)).2⟩

/-- `self.cols = ceil((NUM_CORE + len(self.GPU_COL)) / self.rows)` of
`__init__`, as a function of the metric count and the row count. -/
def compute_cols (num_metrics rows : ℕ) : ℕ :=
  (⌈(num_metrics : ℚ) / (rows : ℚ)⌉).toNat

/-- The cell `compute_bars` writes metric `i` into:
`(elements_placed // self.cols, elements_placed % self.cols)`. -/
def layout_cell (cols i : ℕ) : ℕ × ℕ := (i / cols, i % cols)

/-- The label padding of `__init__`:
`stats += ["" for d in range(self.cols * self.rows - len(stats))]`. -/
def pad_stats (stats : List String) (cells : ℕ) : List String :=
  stats ++ List.replicate (cells - stats.length) ""

/-- The `math.ceil` of the exact quotient agrees with natural ceiling
division. -/
theorem compute_cols_eq (n r : ℕ) (hr : 0 < r) :
    compute_cols n r = (n + r - 1) / r := by
  unfold compute_cols
  have hrq : (0 : ℚ) < (r : ℚ) := by exact_mod_cast hr
  have hdm : r * ((n + r - 1) / r) + (n + r - 1) % r = n + r - 1 :=
    Nat.div_add_mod _ _
  have hmlt : (n + r - 1) % r < r := Nat.mod_lt _ hr
  have hsum : 1 ≤ n + r := by omega
  have hdm1 : r * ((n + r - 1) / r) + (n + r - 1) % r + 1 = n + r := by
    rw [hdm, Nat.sub_add_cancel hsum]
  have hdmq : (r : ℚ) * (((n + r - 1) / r : ℕ) : ℚ) +
      (((n + r - 1) % r : ℕ) : ℚ) + 1 = (n : ℚ) + (r : ℚ) := by
    exact_mod_cast congrArg (fun k : ℕ => (k : ℚ)) hdm1
  have hm0 : (0 : ℚ) ≤ (((n + r - 1) % r : ℕ) : ℚ) := Nat.cast_nonneg _
  have hmltq : (((n + r - 1) % r : ℕ) : ℚ) + 1 ≤ (r : ℚ) := by
    exact_mod_cast Nat.succ_le_of_lt hmlt
  have hceil : ⌈(n : ℚ) / (r : ℚ)⌉ = (((n + r - 1) / r : ℕ) : ℤ) := by
    rw [Int.ceil_eq_iff]
    constructor
    · rw [lt_div_iff₀ hrq, Int.cast_natCast]
      linarith
    · rw [div_le_iff₀ hrq, Int.cast_natCast, mul_comm]
      linarith
  rw [hceil, Int.toNat_natCast]

/-- The grid of `ceil(n / r)` columns holds all `n` metrics and is
non-degenerate for `n > 0`. -/
theorem grid_capacity (n r : ℕ) (hn : 0 < n) (hr : 0 < r) :
    n ≤ r * ((n + r - 1) / r) ∧ 0 < (n + r - 1) / r := by
  have hdm := Nat.div_add_mod (n + r - 1) r
  have hmlt := Nat.mod_lt (n + r - 1) hr
  constructor
  · generalize hX : r * ((n + r - 1) / r) = X at hdm ⊢
    generalize hm : (n + r - 1) % r = m at hdm hmlt
    omega
  · rcases Nat.eq_zero_or_pos ((n + r - 1) / r) with h0 | h0
    · rw [h0, Nat.mul_zero] at hdm
      omega
    · exact h0

/-- Indices below the grid capacity land in a row below `r`. -/
theorem layout_row_lt (c r i n : ℕ) (hc : 0 < c) (hi : i < n)
    (hcap : n ≤ r * c) : i / c < r := by
  have h : i < r * c := lt_of_lt_of_le hi hcap
  exact Nat.div_lt_iff_lt_mul hc |>.mpr h

/-- Quotient and remainder by the column count determine the index. -/
theorem layout_inj (c i j : ℕ) (hdiv : i / c = j / c)
    (hmod : i % c = j % c) : i = j := by
  have hi := Nat.div_add_mod i c
  have hj := Nat.div_add_mod j c
  rw [hdiv, hmod] at hi
  generalize hX : c * (j / c) = X at hi hj
  omega

/-- C5: with `cols = ceil(n / rows)` as computed in `__init__`, the
row-major assignment `i ↦ (i // cols, i % cols)` used by `compute_bars`
sends `0..n-1` injectively to distinct in-range cells of the
`rows × cols` grid, and the label padding of `__init__` brings the label
count up to `rows * cols`. -/
theorem C5_layout (n r : ℕ) (hn : 0 < n) (hr : 0 < r) :
    0 < compute_cols n r ∧
    n ≤ r * compute_cols n r ∧
    (∀ i, i < n → (layout_cell (compute_cols n r) i).1 < r ∧
      (layout_cell (compute_cols n r) i).2 < compute_cols n r) ∧
    (∀ i j, i < n → j < n →
      layout_cell (compute_cols n r) i = layout_cell (compute_cols n r) j →
      i = j) ∧
    (∀ stats : List String, stats.length = n →
      (pad_stats stats (r * compute_cols n r)).length =
        r * compute_cols n r) := by
  rw [compute_cols_eq n r hr]
  obtain ⟨hcap, hc0⟩ := grid_capacity n r hn hr
  refine ⟨hc0, hcap, fun i hi => ?_, fun i j _ _ hij => ?_, fun stats hs => ?_⟩
  · exact ⟨layout_row_lt _ r i n hc0 hi hcap,
      Nat.mod_lt i hc0⟩
  · have h1 : i / ((n + r - 1) / r) = j / ((n + r - 1) / r) :=
      congrArg Prod.fst hij
    have h2 : i % ((n + r - 1) / r) = j % ((n + r - 1) / r) :=
      congrArg Prod.snd hij
    exact layout_inj _ i j h1 h2
  · have hle : stats.length ≤ r * ((n + r - 1) / r) := hs ▸ hcap
    simp only [pad_stats, List.length_append, List.length_replicate]
    omega

/-- Witness for C5 at `n = 12` metrics (8 cores plus 4 GPU columns) in
`r = 3` rows, the profiler default. -/
theorem C5_witness :
    (0 < 12) ∧ (0 < 3) ∧ 0 < compute_cols 12 3 ∧ 12 ≤ 3 * compute_cols 12 3 ∧
    (∀ i, i < 12 → (layout_cell (compute_cols 12 3) i).1 < 3 ∧
      (layout_cell (compute_cols 12 3) i).2 < compute_cols 12 3) ∧
    (∀ i j, i < 12 → j < 12 →
      layout_cell (compute_cols 12 3) i = layout_cell (compute_cols 12 3) j →
      i = j) ∧
    (∀ stats : List String, stats.length = 12 →
      (pad_stats stats (3 * compute_cols 12 3)).length =
        3 * compute_cols 12 3) := by
  obtain ⟨h1, h2, h3, h4, h5⟩ := C5_layout 12 3 (by norm_num) (by norm_num)
  exact ⟨by norm_num, by norm_num, h1, h2, h3, h4, h5⟩

/-- `StdOutWrapper.write`: `self.queue.append(out)` on a
`collections.deque()` constructed with no maximum length; the queue is
modelled as the list of buffered chunks in FIFO order. -/
def StdOutWrapper.write (queue : List String) (out : String) : List String :=
  queue ++ [out]

/-- `StdOutWrapper.read`: `out = " ".join(list(self.queue));
self.queue.clear(); return out` — the joined text plus the emptied
queue. -/
def StdOutWrapper.read (queue : List String) : String × List String :=
  (String.intercalate " " queue, [])

/-- `flush = read`: the class-level alias in the source. -/
def StdOutWrapper.flush : List String → String × List String :=
  StdOutWrapper.read

/-- A burst of `write` calls applied in order. -/
def writeAll (queue : List String) (outs : List String) : List String :=
  outs.foldl StdOutWrapper.write queue

/-- A burst of writes appends the chunks in order. -/
theorem writeAll_eq (queue outs : List String) :
    writeAll queue outs = queue ++ outs := by
  induction outs generalizing queue with
  | nil => simp [writeAll]
  | cons o os ih =>
    show writeAll (StdOutWrapper.write queue o) os = queue ++ o :: os
    rw [ih]
    simp [StdOutWrapper.write]

/-- C6 counterexample: the deque is constructed without a capacity and
`write` never trims, so after 1000 writes the buffer holds 1000 chunks,
and no bound `K` fixed at construction can dominate the buffer length
over all write sequences. -/
theorem C6_counterexample :
    (writeAll [] (List.replicate 1000 "x")).length = 1000 ∧
    ¬ ∃ K : ℕ, ∀ outs : List String, (writeAll [] outs).length ≤ K := by
  constructor
  · rw [writeAll_eq, List.nil_append, List.length_replicate]
  · rintro ⟨K, hK⟩
    have h := hK (List.replicate (K + 1) "x")
    rw [writeAll_eq, List.nil_append, List.length_replicate] at h
    omega

/-- C6 (amended): the buffer is unbounded: a burst of writes appends its
chunks in FIFO order, the buffer length grows by exactly the number of
writes, and only `read` empties it. -/
theorem C6_write_appends :
    ∀ queue outs : List String,
      writeAll queue outs = queue ++ outs ∧
      (writeAll queue outs).length = queue.length + outs.length ∧
      (StdOutWrapper.read (writeAll queue outs)).2 = [] := by
  intro queue outs
  refine ⟨writeAll_eq queue outs, ?_, rfl⟩
  rw [writeAll_eq]
  simp

/-- C7 counterexample: `read` joins the buffered chunks with
`" ".join(...)`, so `write("a\n"); write("b\n"); drain()` yields
`"a\n b\n"` — a space is inserted between the chunks — not `"a\nb\n"`. -/
theorem C7_counterexample :
    (StdOutWrapper.read
      (StdOutWrapper.write (StdOutWrapper.write [] "a\n") "b\n")).1 =
      "a\n b\n" ∧
    "a\n b\n" ≠ "a\nb\n" := by
  constructor
  · decide
  · decide

/-- C7 (amended): `read` returns the buffered chunks in FIFO write order
joined with a single space and clears the buffer: after `write("a\n")`
then `write("b\n")` it returns `"a\n b\n"`, and a second `read` with no
intervening write returns `""`. -/
theorem C7_drain_fifo_and_clear :
    (∀ queue, StdOutWrapper.read queue =
      (String.intercalate " " queue, [])) ∧
    StdOutWrapper.read
      (StdOutWrapper.write (StdOutWrapper.write [] "a\n") "b\n") =
      ("a\n b\n", []) ∧
    StdOutWrapper.read [] = ("", []) := by
  refine ⟨fun _ => rfl, by decide, by decide⟩

/-- Python `s.strip(chars)`: remove from both ends every character that
occurs in `chars` (here always `"MiB"`). -/
def pyStrip (s : String) (cs : String) : String :=
  String.mk (((s.data.dropWhile (· ∈ cs.data)).reverse.dropWhile
    (· ∈ cs.data)).reverse)

/-- Python `int(s)` on a plain unsigned decimal string: `some` the value
when every character is a digit, `none` (a `ValueError`) otherwise. -/
def parseNat (s : String) : Option ℕ :=
  if s.data ≠ [] ∧ s.data.all (·.isDigit) then
    some (s.data.foldl (fun n c => n * 10 + (c.toNat - '0'.toNat)) 0)
  else none

/-- `PerformanceProfiler.gpu_utilization` after the provider pipeline:
from the four space-separated tokens `temp mem_used mem_total gpu_util`,
return `(temp, int(mem_used.strip("MiB")) / int(mem_total.strip("MiB")),
gpu_util[:-1])`; `none` models an exception from `int(...)`. -/
def gpu_utilization (temp mem_used mem_total gpu_util : String) :
    Option (String × ℚ × String) :=
  match parseNat (pyStrip mem_used "MiB"), parseNat (pyStrip mem_total "MiB") with
  | some u, some t => some (temp, (u : ℚ) / (t : ℚ), gpu_util.dropRight 1)
  | _, _ => none

/-- C8 counterexample: for provider tokens
`temp = "45C", mem_used = "2048MiB", mem_total = "8192MiB",
gpu_util = "30%"` the code returns the percentage *string* `"30"` as the
utilization — the trailing character is sliced off but the value is never
divided by 100, so read as a number it is `30`, not the fraction
`30 / 100`, and lies outside `[0, 1]`. -/
theorem C8_counterexample :
    gpu_utilization "45C" "2048MiB" "8192MiB" "30%" =
      some ("45C", (1 : ℚ) / 4, "30") ∧
    parseNat "30" = some 30 ∧
    ¬ ((30 : ℚ) = 30 / 100) ∧
    ¬ ((30 : ℚ) ≤ 1) := by
  refine ⟨?_, by decide, by norm_num, by norm_num⟩
  have hu : parseNat (pyStrip "2048MiB" "MiB") = some 2048 := by decide
  have ht : parseNat (pyStrip "8192MiB" "MiB") = some 8192 := by decide
  unfold gpu_utilization
  rw [hu, ht, show "30%".dropRight 1 = "30" from by decide]
  norm_num

/-- C8 (amended): `gpu_utilization` returns the GPU memory fraction
`mem_used / mem_total` (units stripped), together with the raw
temperature token and the provider's utilization percentage as a string
with its final character removed — on the 0–100 percent scale, not
divided by 100. -/
theorem C8_gpu_readings (temp mu mt gu : String) (u t : ℕ)
    (hu : parseNat (pyStrip mu "MiB") = some u)
    (ht : parseNat (pyStrip mt "MiB") = some t) :
    gpu_utilization temp mu mt gu =
      some (temp, (u : ℚ) / (t : ℚ), gu.dropRight 1) := by
  unfold gpu_utilization
  rw [hu, ht]

/-- Witness for C8 at the tokens `"45C" "2048MiB" "8192MiB" "30%"`. -/
theorem C8_witness :
    parseNat (pyStrip "2048MiB" "MiB") = some 2048 ∧
    parseNat (pyStrip "8192MiB" "MiB") = some 8192 ∧
    gpu_utilization "45C" "2048MiB" "8192MiB" "30%" =
      some ("45C", (2048 : ℚ) / (8192 : ℚ), "30%".dropRight 1) :=
  ⟨by decide, by decide,
   C8_gpu_readings "45C" "2048MiB" "8192MiB" "30%" 2048 8192
     (by decide) (by decide)⟩

/-- Where a stream of host-program output can be directed. -/
inductive OutTarget
  | realStdout
  | wrapper
  | stdoutMethod
deriving DecidableEq, Repr

/-- The redirect state touched by `__init__` and `deinit`: the module
attribute `sys.stdout` (and the misspelled `sys.stderror` set next to
it), the class attribute `PerformanceProfiler.stdout` (which holds the
`stdout` method until something overwrites it), and whether the curses
surface is active. -/
structure RedirectState where
  sys_stdout : OutTarget
  sys_stderror : OutTarget
  cls_stdout : OutTarget
  curses_active : Bool
deriving DecidableEq, Repr

/-- The state before the profiler is constructed. -/
def startState : RedirectState :=
  ⟨OutTarget.realStdout, OutTarget.realStdout, OutTarget.stdoutMethod, false⟩

/-- The redirection performed by `__init__`:
`sys.stdout = self.out; sys.stderror = self.out` and curses is brought
up. -/
def init_redirect (s : RedirectState) : RedirectState :=
  { s with
    sys_stdout := OutTarget.wrapper
    sys_stderror := OutTarget.wrapper
    curses_active := true }

/-- `PerformanceProfiler.deinit`:
`PerformanceProfiler.stdout = PerformanceProfiler.sys.__stdout__` —
an assignment to the *class attribute* `stdout`, not to `sys.stdout` —
followed by `curses.endwin()`. -/
def deinit (s : RedirectState) : RedirectState :=
  { s with cls_stdout := OutTarget.realStdout, curses_active := false }

/-- C9: after `__init__` then `deinit`, the curses surface is released
and the class attribute `stdout` now holds the real stdout (clobbering
the `stdout` method), but `sys.stdout` is still the `StdOutWrapper`: the
host's original standard output stream is never restored, so subsequent
host writes keep going to the dead capture buffer. -/
theorem C9_deinit_leaves_stdout_captured :
    (deinit (init_redirect startState)).curses_active = false ∧
    (deinit (init_redirect startState)).cls_stdout = OutTarget.realStdout ∧
    (deinit (init_redirect startState)).sys_stdout = OutTarget.wrapper ∧
    (deinit (init_redirect startState)).sys_stdout ≠ OutTarget.realStdout := by
  decide

/-- C10: `read` returns the buffered chunks joined with a single space in
FIFO write order and leaves the buffer empty, returns `""` on an empty
buffer, and `flush` is literally the same operation as `read`. -/
theorem C10_read_joins_and_clears :
    (∀ outs : List String, StdOutWrapper.read (writeAll [] outs) =
      (String.intercalate " " outs, [])) ∧
    StdOutWrapper.read [] = ("", []) ∧
    StdOutWrapper.flush = StdOutWrapper.read := by
  refine ⟨fun outs => ?_, by decide, rfl⟩
  rw [writeAll_eq]
  simp [StdOutWrapper.read]

end Profiler
